import Mathlib

/-!
# Telegram bot bridge (src/main.go): polling loop, router and handlers

A shallow embedding of `src/main.go`.  Go strings are Lean strings, Go `int`
is `Int` (the one addition of the program, `LastUpdateID+1`, wraps at 64 bits),
nil-able pointers are `Option`, and a nil dereference is the `panic` outcome.

Everything the program does to the outside world (log lines, HTTP requests,
Firestore writes, Firebase Auth calls, sleeps) is appended to a trace, and the
outside world answers through an environment that is a function of the trace
so far, so the same request may be answered differently at different times.
The Firebase clients are non-nil while the bot runs (`main` exits when
`initFirebase` fails), so the only panics are the nil dereferences of the
pointers decoded from JSON.
-/

namespace TelegramBot

/-! ## Go library functions used by the program -/

/-- Decimal form of an integer, as `strconv.Itoa` and the verb `%d` print it. -/
def Itoa (i : Int) : String :=
  match i with
  | Int.ofNat n => Nat.repr n
  | Int.negSucc n => "-" ++ Nat.repr (n + 1)

/-- The slice expression `s[lo:]`.  The program only slices the output of
`Itoa`, which is ASCII, so bytes and characters coincide. -/
def sliceFrom (s : String) (lo : Nat) : String :=
  String.mk (s.data.drop lo)

/-- Padding of a string operand by package fmt (`padString` with no `-` flag):
when the operand is shorter than the width, the missing characters are written
in front of it, `0` under the zero flag and a blank otherwise. -/
def padString (wid : Nat) (zero : Bool) (s : String) : String :=
  String.mk (List.replicate (wid - s.length) (if zero then '0' else ' ')) ++ s

/-- Substring test `strings.Contains s substr`. -/
def stringsContains (s substr : String) : Prop :=
  substr.data <:+: s.data

instance (s substr : String) : Decidable (stringsContains s substr) :=
  inferInstanceAs (Decidable (substr.data <:+: s.data))

/-- Two's complement wrap-around of a 64-bit Go `int`. -/
def wrapInt (x : Int) : Int :=
  (x + 2 ^ 63) % 2 ^ 64 - 2 ^ 63

/-! ## Data model -/

/-- The fields of `TelegramBotServer` the bot logic reads or writes; the three
Firebase handles are represented by the environment. -/
structure TelegramBotServer where
  BotToken : String
  BaseURL : String
  FirebaseProjectID : String
  LastUpdateID : Int
  IsRunning : Bool
  deriving DecidableEq, Repr

structure TelegramUser where
  ID : Int
  FirstName : String
  Username : String
  deriving DecidableEq, Repr

structure TelegramChat where
  ID : Int
  deriving DecidableEq, Repr

structure TelegramContact where
  PhoneNumber : String
  FirstName : String
  UserID : Int
  deriving DecidableEq, Repr

structure TelegramMessage where
  MessageID : Int
  From : Option TelegramUser
  Chat : Option TelegramChat
  Text : String
  Contact : Option TelegramContact
  deriving DecidableEq, Repr

structure TelegramUpdate where
  UpdateID : Int
  Message : Option TelegramMessage
  deriving DecidableEq, Repr

structure TelegramResponse where
  OK : Bool
  Result : List TelegramUpdate
  deriving DecidableEq, Repr

structure UserInfo where
  PhoneNumber : String
  FirstName : String
  UserID : Int
  CreatedAt : Nat
  Email : String
  Password : String
  deriving DecidableEq, Repr

/-- One button of the reply keyboard built by `handleStartCommand`. -/
structure KeyboardButton where
  text : String
  request_contact : Bool
  deriving DecidableEq, Repr

/-- The `replyMarkup` map built by `handleStartCommand`. -/
structure ReplyMarkup where
  keyboard : List (List KeyboardButton)
  resize_keyboard : Bool
  one_time_keyboard : Bool
  deriving DecidableEq, Repr

/-- The `data` map that `sendMessage` posts as JSON. -/
structure SendMessageData where
  chat_id : Int
  text : String
  parse_mode : String
  reply_markup : Option ReplyMarkup
  deriving DecidableEq, Repr

/-- Call sites recorded in the trace (ghost events: they have no effect on the
outside world and only make the dispatch order observable). -/
inductive Call where
  | processUpdate (update : TelegramUpdate)
  | handleStartCommand (chatID userID : Int) (firstName username : String)
  | handleContact (message : TelegramMessage) (chatID userID : Int)
  deriving DecidableEq, Repr

/-- What the program does, in the order it does it. -/
inductive Event where
  | log (timestamp : Nat) (message : String)
  | httpGet (url : String)
  | httpPost (url : String) (data : SendMessageData)
  | firestoreSet (collection doc : String) (userInfo : UserInfo)
  | authCreateUser (email password displayName : String)
  | sleep (seconds : Nat)
  | call (c : Call)
  deriving DecidableEq, Repr

/-- Outcome of `http.Get` followed by the JSON decoding of the body: the
request fails, or a response with a status code arrives whose body decodes to
a `TelegramResponse` or does not decode. -/
inductive HttpGetOutcome where
  | failed (err : String)
  | response (statusCode : Int) (body : Except String TelegramResponse)

/-- Outcome of `http.Post`. -/
inductive HttpPostOutcome where
  | failed (err : String)
  | response (statusCode : Int) (body : String)

/-- The outside world.  Every answer is a function of the trace up to and
including the request it answers. -/
structure Env where
  now : List Event → Nat
  httpGet : List Event → HttpGetOutcome
  httpPost : List Event → HttpPostOutcome
  firestoreSet : List Event → Option String
  createUser : List Event → Except String String

/-- The bot together with everything it has done so far. -/
structure State where
  bot : TelegramBotServer
  trace : List Event
  deriving DecidableEq, Repr

/-- How a call ends: it returns a value, or a nil dereference panics (which,
unrecovered, ends the process). -/
inductive Exec (α : Type) where
  | done (s : State) (ret : α)
  | panic (s : State)
  deriving DecidableEq, Repr

/-- The state in which a call ended. -/
def Exec.state {α : Type} : Exec α → State
  | Exec.done s _ => s
  | Exec.panic s => s

/-- Append an event to the trace. -/
def emit (s : State) (e : Event) : State :=
  { s with trace := s.trace ++ [e] }

/-! ## The program -/

/-- Method `log`: prints the message with the current time in front. -/
def log (env : Env) (s : State) (message : String) : State :=
  emit s (Event.log (env.now s.trace) message)

/-- Method `generatePassword` (lines 126-132). -/
def generatePassword (userID : Int) : String :=
  let userIDStr := Itoa userID
  if userIDStr.length >= 6 then
    sliceFrom userIDStr (userIDStr.length - 6)
  else
    padString 6 true userIDStr

/-- Method `saveUserToFirestore` (lines 134-154); returns the error, if any. -/
def saveUserToFirestore (env : Env) (s : State) (phoneNumber firstName : String)
    (userID : Int) : State × Option String :=
  let userInfo : UserInfo :=
    { PhoneNumber := phoneNumber
      FirstName := firstName
      UserID := userID
      CreatedAt := env.now s.trace
      Email := phoneNumber ++ "@gmail.com"
      Password := generatePassword userID }
  let s1 := emit s (Event.firestoreSet "userInfo" (Itoa userID) userInfo)
  match env.firestoreSet s1.trace with
  | some err => (s1, some ("Firestore ga saqlashda xatolik: " ++ err))
  | none => (log env s1 ("Firestore ga saqlandi: " ++ phoneNumber), none)

/-- Method `createFirebaseUser` (lines 156-178); returns the error, if any. -/
def createFirebaseUser (env : Env) (s : State) (phoneNumber : String)
    (userID : Int) : State × Option String :=
  let email := phoneNumber ++ "@gmail.com"
  let password := generatePassword userID
  let s1 := emit s (Event.authCreateUser email password ("User_" ++ Itoa userID))
  match env.createUser s1.trace with
  | Except.error err =>
    if stringsContains err "already exists" then
      (log env s1 ("Foydalanuvchi allaqachon mavjud: " ++ email), none)
    else
      (s1, some ("Firebase Auth da foydalanuvchi yaratishda xatolik: " ++ err))
  | Except.ok uid =>
    (log env s1 ("Firebase Auth da yaratildi: " ++ email ++ " (UID: " ++ uid ++ ")"), none)

/-- Method `sendMessage` (lines 302-333).  `json.Marshal` cannot fail on a map
of an integer, strings, booleans and nested maps of these, so the POST request
is always made. -/
def sendMessage (env : Env) (s : State) (chatID : Int) (text : String)
    (replyMarkup : Option ReplyMarkup) : State :=
  let data : SendMessageData :=
    { chat_id := chatID, text := text, parse_mode := "HTML", reply_markup := replyMarkup }
  let url := s.bot.BaseURL ++ s.bot.BotToken ++ "/sendMessage"
  let s1 := emit s (Event.httpPost url data)
  match env.httpPost s1.trace with
  | HttpPostOutcome.failed err => log env s1 ("sendMessage xatoligi: " ++ err)
  | HttpPostOutcome.response statusCode body =>
    if statusCode = 200 then
      log env s1 ("Xabar yuborildi: Chat ID " ++ Itoa chatID)
    else
      log env s1 ("Xabar yuborishda xatolik: " ++ Itoa statusCode ++ " - " ++ body)

/-- The keyboard of `handleStartCommand` (lines 249-260). -/
def startKeyboard : ReplyMarkup :=
  { keyboard := [[{ text := "\uf8ff\u00fc\u00ec\u00b1 Telefon raqamini yuborish",
                    request_contact := true }]]
    resize_keyboard := true
    one_time_keyboard := true }

/-- The text formatted at lines 262-266. -/
def welcomeMessage (firstName : String) : String :=
  "\uf8ff\u00fc\u00a7\u00f1 Assalomu alaykum, " ++ firstName ++
    "!\n\nAmur Restoran botiga xush kelibsiz!\n\nRo\x27yxatdan o\x27tish uchun telefon raqamingizni yuboring."

/-- Method `handleStartCommand` (lines 248-270). -/
def handleStartCommand (env : Env) (s : State) (chatID userID : Int)
    (firstName _username : String) : State :=
  let s1 := sendMessage env s chatID (welcomeMessage firstName) (some startKeyboard)
  log env s1 ("Start komandasi yuborildi: " ++ Itoa userID)

/-- The text formatted at lines 291-296: its two operands are the phone number
and the password. -/
def successMessage (phoneNumber password : String) : String :=
  "\u201a\u00fa\u00d6 Ma\x27lumotlaringiz muvaffaqiyatli saqlandi!\n\n\uf8ff\u00fc\u00ec\u00df Login: " ++
    phoneNumber ++ "\n\uf8ff\u00fc\u00ee\u00ea Parol: " ++ password ++
    "\n\nEndi siz ilovaga kirish uchun ushbu ma\x27lumotlardan foydalanishingiz mumkin."

/-- Method `handleContact` (lines 271-300).  Reading a field of a nil
`message.Contact` panics. -/
def handleContact (env : Env) (s : State) (message : TelegramMessage)
    (chatID _userID : Int) : Exec Unit :=
  match message.Contact with
  | none => Exec.panic s
  | some contact =>
    let phoneNumber := contact.PhoneNumber
    let firstName := contact.FirstName
    let contactUserID := contact.UserID
    let s1 := log env s ("Kontakt qabul qilindi: " ++ phoneNumber ++ ", User: " ++ firstName)
    let s2 :=
      match saveUserToFirestore env s1 phoneNumber firstName contactUserID with
      | (t, some err) => log env t ("saveUserToFirestore xatoligi: " ++ err)
      | (t, none) => t
    let s3 :=
      match createFirebaseUser env s2 phoneNumber contactUserID with
      | (t, some err) => log env t ("createFirebaseUser xatoligi: " ++ err)
      | (t, none) => t
    let password := generatePassword contactUserID
    let s4 := sendMessage env s3 chatID (successMessage phoneNumber password) none
    Exec.done (log env s4 ("Ma\x27lumot saqlandi: " ++ phoneNumber)) ()

/-- Method `processUpdate` (lines 222-246).  `message.Chat.ID` is read first and
`message.From.ID` second; either panics on a nil pointer. -/
def processUpdate (env : Env) (s : State) (update : TelegramUpdate) : Exec Unit :=
  match update.Message with
  | none => Exec.done s ()
  | some message =>
    match message.Chat with
    | none => Exec.panic s
    | some chat =>
      match message.From with
      | none => Exec.panic s
      | some sender =>
        let chatID := chat.ID
        let userID := sender.ID
        let firstName := sender.FirstName
        let username := sender.Username
        let s1 := log env s ("Yangi xabar: User ID " ++ Itoa userID ++ ", Name: " ++ firstName)
        if message.Text = "/start" then
          Exec.done
            (handleStartCommand env
              (emit s1 (Event.call (Call.handleStartCommand chatID userID firstName username)))
              chatID userID firstName username) ()
        else if message.Contact.isSome then
          handleContact env (emit s1 (Event.call (Call.handleContact message chatID userID)))
            message chatID userID
        else if message.Text ≠ "" then
          let s2 := log env s1 ("Matn xabar: " ++ message.Text)
          Exec.done
            (sendMessage env s2 chatID
              ("Sizning xabaringiz qabul qilindi: " ++ message.Text) none) ()
        else
          Exec.done s1 ()

/-- The URL requested by `getUpdates` (line 196). -/
def getUpdatesURL (bot : TelegramBotServer) : String :=
  bot.BaseURL ++ bot.BotToken ++ "/getUpdates?offset=" ++ Itoa (wrapInt (bot.LastUpdateID + 1))

/-- The loop of `getUpdates` (lines 213-216): in the order of the slice, store
the update id in `LastUpdateID`, then call `processUpdate`. -/
def getUpdatesLoop (env : Env) : State → List TelegramUpdate → Exec Unit
  | s, [] => Exec.done s ()
  | s, update :: rest =>
    let s1 : State := { s with bot := { s.bot with LastUpdateID := update.UpdateID } }
    match processUpdate env (emit s1 (Event.call (Call.processUpdate update))) update with
    | Exec.done s2 _ => getUpdatesLoop env s2 rest
    | Exec.panic s2 => Exec.panic s2

/-- Method `getUpdates` (lines 195-220); returns the error, if any. -/
def getUpdates (env : Env) (s : State) : Exec (Option String) :=
  let s1 := emit s (Event.httpGet (getUpdatesURL s.bot))
  match env.httpGet s1.trace with
  | HttpGetOutcome.failed err => Exec.done s1 (some err)
  | HttpGetOutcome.response statusCode body =>
    if statusCode ≠ 200 then
      Exec.done s1 (some ("getUpdates xatoligi: Status " ++ Itoa statusCode))
    else
      match body with
      | Except.error err => Exec.done s1 (some err)
      | Except.ok telegramResp =>
        if telegramResp.OK && telegramResp.Result.length > 0 then
          match getUpdatesLoop env s1 telegramResp.Result with
          | Exec.done s2 _ => Exec.done s2 none
          | Exec.panic s2 => Exec.panic s2
        else
          Exec.done s1 none

/-- One turn of the loop of `startBot` (lines 186-191): poll, then sleep five
seconds after an error and two seconds otherwise. -/
def startBotIteration (env : Env) (s : State) : Exec Unit :=
  match getUpdates env s with
  | Exec.done s1 (some err) =>
    Exec.done (emit (log env s1 ("Bot xatoligi: " ++ err)) (Event.sleep 5)) ()
  | Exec.done s1 none => Exec.done (emit s1 (Event.sleep 2)) ()
  | Exec.panic s1 => Exec.panic s1

/-! ## Observations on a trace -/

/-- The updates handed to `processUpdate`, in order. -/
def dispatched (t : List Event) : List TelegramUpdate :=
  t.filterMap fun e =>
    match e with
    | Event.call (Call.processUpdate u) => some u
    | _ => none

/-- The handlers entered, in order. -/
def handlerCalls (t : List Event) : List Call :=
  t.filterMap fun e =>
    match e with
    | Event.call (Call.handleStartCommand c u f n) => some (Call.handleStartCommand c u f n)
    | Event.call (Call.handleContact m c u) => some (Call.handleContact m c u)
    | _ => none

/-- The outbound messages (POST requests), in order. -/
def posts (t : List Event) : List (String × SendMessageData) :=
  t.filterMap fun e =>
    match e with
    | Event.httpPost url data => some (url, data)
    | _ => none

/-- The poll requests (GET requests), in order. -/
def httpGets (t : List Event) : List String :=
  t.filterMap fun e =>
    match e with
    | Event.httpGet url => some url
    | _ => none

/-- The backend calls (Firestore writes and Firebase Auth user creations). -/
def backendCalls (t : List Event) : List Event :=
  t.filter fun e =>
    match e with
    | Event.firestoreSet _ _ _ => true
    | Event.authCreateUser _ _ _ => true
    | _ => false

/-- No field read of `processUpdate` hits a nil pointer: the update carries no
message, or its message names both a chat and a sender. -/
def derefSafe (update : TelegramUpdate) : Bool :=
  match update.Message with
  | none => true
  | some message => message.Chat.isSome && message.From.isSome

/-- The answer of the outside world to the poll request that `getUpdates`
makes in state `s`. -/
def fetchOutcome (env : Env) (s : State) : HttpGetOutcome :=
  env.httpGet (emit s (Event.httpGet (getUpdatesURL s.bot))).trace

/-- The id that the loop of `getUpdates` leaves in `LastUpdateID`: the id of
the update handled last, or the old cursor for an empty batch. -/
def lastAssigned (cursor : Int) (batch : List TelegramUpdate) : Int :=
  batch.foldl (fun _ update => update.UpdateID) cursor

/-- The fetch failures named by the specification: the HTTP request fails, the
status is not 200, or the body cannot be decoded. -/
def fetchFailed : HttpGetOutcome → Bool
  | HttpGetOutcome.failed _ => true
  | HttpGetOutcome.response statusCode body =>
    match body with
    | Except.error _ => true
    | Except.ok _ => decide (statusCode ≠ 200)

/-- A stretch of the trace that consists of log lines only. -/
def onlyLogs (l : List Event) : Prop :=
  ∀ e ∈ l, ∃ ts m, e = Event.log ts m

/-! ## Concrete inputs -/

/-- A bot that has done nothing yet, with the cursor at 0. -/
def initialState : State :=
  { bot :=
      { BotToken := "TOKEN"
        BaseURL := "https://api.telegram.org/bot"
        FirebaseProjectID := "amur-restoran"
        LastUpdateID := 0
        IsRunning := true }
    trace := [] }

def exampleSender : TelegramUser :=
  { ID := 42, FirstName := "Ali", Username := "ali" }

def exampleContact : TelegramContact :=
  { PhoneNumber := "998901234567", FirstName := "Ali", UserID := 42 }

/-- A message from `exampleSender` in chat 7. -/
def exampleMessage (text : String) (contact : Option TelegramContact) : TelegramMessage :=
  { MessageID := 1, From := some exampleSender, Chat := some { ID := 7 }, Text := text,
    Contact := contact }

def greetUpdate (id : Int) : TelegramUpdate :=
  { UpdateID := id, Message := some (exampleMessage "/start" none) }

def contactUpdate (id : Int) : TelegramUpdate :=
  { UpdateID := id, Message := some (exampleMessage "" (some exampleContact)) }

def textUpdate (id : Int) : TelegramUpdate :=
  { UpdateID := id, Message := some (exampleMessage "salom" none) }

/-- The batch of the example in the specification: a greeting with id 5, a
contact share with id 7 and a text with id 6, arriving in this order. -/
def outOfOrderBatch : List TelegramUpdate :=
  [greetUpdate 5, contactUpdate 7, textUpdate 6]

/-- The same three updates arriving in ascending order of their ids. -/
def ascendingBatch : List TelegramUpdate :=
  [greetUpdate 5, textUpdate 6, contactUpdate 7]

/-- A text message in chat 7 that names no sender (`from` is absent, as the
Telegram API allows). -/
def senderlessUpdate : TelegramUpdate :=
  { UpdateID := 1,
    Message := some { MessageID := 1, From := none, Chat := some { ID := 7 }, Text := "hi",
                      Contact := none } }

/-- A greeting that also carries a contact. -/
def greetWithContact : TelegramUpdate :=
  { UpdateID := 9, Message := some (exampleMessage "/start" (some exampleContact)) }

/-- A bot whose cursor already stands at 10. -/
def laterState : State :=
  { bot := { initialState.bot with LastUpdateID := 10 }, trace := [] }

/-- A world in which every request succeeds and every poll returns `batch`. -/
def worldReturning (batch : List TelegramUpdate) : Env :=
  { now := fun t => t.length
    httpGet := fun _ => HttpGetOutcome.response 200 (Except.ok { OK := true, Result := batch })
    httpPost := fun _ => HttpPostOutcome.response 200 ""
    firestoreSet := fun _ => none
    createUser := fun _ => Except.ok "uid-1" }

/-- A world in which every request fails. -/
def worldFailing : Env :=
  { now := fun t => t.length
    httpGet := fun _ => HttpGetOutcome.failed "timeout"
    httpPost := fun _ => HttpPostOutcome.failed "timeout"
    firestoreSet := fun _ => some "unavailable"
    createUser := fun _ => Except.error "internal error" }

/-! ## The rules in the words of the specification -/

/-- The password-derivation rule as the specification words it: take the
decimal string form of the user id; if its length is at least 6, take its last
6 digits; otherwise left-pad with zeros to exactly 6 digits. -/
def deriveSecret (userID : Int) : String :=
  let decimal := Itoa userID
  if 6 ≤ decimal.length then
    String.mk ((decimal.data.reverse.take 6).reverse)
  else
    String.mk (List.leftpad 6 '0' decimal.data)

/-! ## Theorems -/

theorem sliceFrom_eq_last (s : String) (n : Nat) :
    sliceFrom s (s.length - n) = String.mk ((s.data.reverse.take n).reverse) := by
  unfold sliceFrom
  congr 1
  rw [List.take_reverse, List.reverse_reverse]
  rfl

theorem padString_zero_eq_leftpad (wid : Nat) (s : String) :
    padString wid true s = String.mk (List.leftpad wid '0' s.data) := by
  cases s
  rfl

theorem length_sliceFrom (s : String) (lo : Nat) :
    (sliceFrom s lo).length = s.length - lo := by
  unfold sliceFrom
  show (s.data.drop lo).length = s.data.length - lo
  simp

theorem length_padString (wid : Nat) (zero : Bool) (s : String) :
    (padString wid zero s).length = (wid - s.length) + s.length := by
  unfold padString
  rw [String.length_append]
  show (List.replicate _ _).length + _ = _
  simp

/-- C1: for every non-negative user id, `generatePassword` returns what the
password-derivation rule of the specification prescribes: the decimal string
cut to its last 6 digits when it has 6 or more digits, and otherwise that
string left-padded with zeros to 6 digits; the passwords of 42 and 1234567 are
"000042" and "234567". -/
theorem generatePassword_eq_deriveSecret (userID : Int) (h : 0 ≤ userID) :
    generatePassword userID = deriveSecret userID ∧
      generatePassword 42 = "000042" ∧ generatePassword 1234567 = "234567" := by
  have _ := h
  refine ⟨?_, by decide, by decide⟩
  unfold generatePassword deriveSecret
  by_cases hlen : 6 ≤ (Itoa userID).length
  · simp only [ge_iff_le, hlen, if_true]
    exact sliceFrom_eq_last _ 6
  · simp only [ge_iff_le, hlen, if_false]
    exact padString_zero_eq_leftpad 6 _

theorem generatePassword_eq_deriveSecret_witness :
    (0 : Int) ≤ 987654321 ∧
      (generatePassword 987654321 = deriveSecret 987654321 ∧
        generatePassword 42 = "000042" ∧ generatePassword 1234567 = "234567") :=
  ⟨by decide, generatePassword_eq_deriveSecret 987654321 (by decide)⟩

/-- C2: for every non-negative user id, the password returned by
`generatePassword` has exactly 6 characters. -/
theorem generatePassword_length (userID : Int) (h : 0 ≤ userID) :
    (generatePassword userID).length = 6 := by
  have _ := h
  unfold generatePassword
  by_cases hlen : 6 ≤ (Itoa userID).length
  · simp only [ge_iff_le, hlen, if_true]
    rw [length_sliceFrom]
    omega
  · simp only [ge_iff_le, hlen, if_false]
    rw [length_padString]
    omega

theorem generatePassword_length_witness :
    (0 : Int) ≤ 42 ∧ (generatePassword 42).length = 6 :=
  ⟨by decide, generatePassword_length 42 (by decide)⟩


/-! ### Effects of the program on the trace -/

@[simp] theorem emit_trace (s : State) (e : Event) : (emit s e).trace = s.trace ++ [e] := rfl

@[simp] theorem emit_bot (s : State) (e : Event) : (emit s e).bot = s.bot := rfl

@[simp] theorem log_trace (env : Env) (s : State) (m : String) :
    (log env s m).trace = s.trace ++ [Event.log (env.now s.trace) m] := rfl

@[simp] theorem log_bot (env : Env) (s : State) (m : String) : (log env s m).bot = s.bot := rfl

theorem dispatched_append (a b : List Event) :
    dispatched (a ++ b) = dispatched a ++ dispatched b := by
  simp [dispatched, List.filterMap_append]

theorem handlerCalls_append (a b : List Event) :
    handlerCalls (a ++ b) = handlerCalls a ++ handlerCalls b := by
  simp [handlerCalls, List.filterMap_append]

theorem posts_append (a b : List Event) : posts (a ++ b) = posts a ++ posts b := by
  simp [posts, List.filterMap_append]

theorem httpGets_append (a b : List Event) : httpGets (a ++ b) = httpGets a ++ httpGets b := by
  simp [httpGets, List.filterMap_append]

theorem backendCalls_append (a b : List Event) :
    backendCalls (a ++ b) = backendCalls a ++ backendCalls b := by
  simp [backendCalls, List.filter_append]

theorem dispatched_cons (e : Event) (l : List Event) :
    dispatched (e :: l) =
      (match e with
        | Event.call (Call.processUpdate u) => [u]
        | _ => []) ++ dispatched l := by
  cases e <;> first | rfl | (rename_i c; cases c <;> rfl)

theorem handlerCalls_cons (e : Event) (l : List Event) :
    handlerCalls (e :: l) =
      (match e with
        | Event.call (Call.handleStartCommand c u f n) => [Call.handleStartCommand c u f n]
        | Event.call (Call.handleContact m c u) => [Call.handleContact m c u]
        | _ => []) ++ handlerCalls l := by
  cases e <;> first | rfl | (rename_i c; cases c <;> rfl)

theorem posts_cons (e : Event) (l : List Event) :
    posts (e :: l) =
      (match e with
        | Event.httpPost url data => [(url, data)]
        | _ => []) ++ posts l := by
  cases e <;> rfl

theorem httpGets_cons (e : Event) (l : List Event) :
    httpGets (e :: l) =
      (match e with
        | Event.httpGet url => [url]
        | _ => []) ++ httpGets l := by
  cases e <;> rfl

theorem backendCalls_cons (e : Event) (l : List Event) :
    backendCalls (e :: l) =
      (match e with
        | Event.firestoreSet c d u => [Event.firestoreSet c d u]
        | Event.authCreateUser m p n => [Event.authCreateUser m p n]
        | _ => []) ++ backendCalls l := by
  cases e <;> rfl

@[simp] theorem dispatched_nil : dispatched [] = [] := rfl

@[simp] theorem handlerCalls_nil : handlerCalls [] = [] := rfl

@[simp] theorem posts_nil : posts [] = [] := rfl

@[simp] theorem httpGets_nil : httpGets [] = [] := rfl

@[simp] theorem backendCalls_nil : backendCalls [] = [] := rfl

/-- What `sendMessage` does: one POST request to the `sendMessage` endpoint
with the given chat id and text, then one log line. -/
theorem sendMessage_trace (env : Env) (s : State) (chatID : Int) (text : String)
    (replyMarkup : Option ReplyMarkup) :
    ∃ ts m, (sendMessage env s chatID text replyMarkup).trace =
      s.trace ++ [Event.httpPost (s.bot.BaseURL ++ s.bot.BotToken ++ "/sendMessage")
        { chat_id := chatID, text := text, parse_mode := "HTML", reply_markup := replyMarkup },
        Event.log ts m] := by
  simp only [sendMessage]
  split
  · exact ⟨_, _, by rw [log_trace, emit_trace, List.append_assoc]; rfl⟩
  · split <;> exact ⟨_, _, by rw [log_trace, emit_trace, List.append_assoc]; rfl⟩

@[simp] theorem sendMessage_bot (env : Env) (s : State) (chatID : Int) (text : String)
    (replyMarkup : Option ReplyMarkup) :
    (sendMessage env s chatID text replyMarkup).bot = s.bot := by
  simp only [sendMessage]
  split
  · simp
  · split <;> simp

theorem onlyLogs_nil : onlyLogs [] := by
  intro e he
  cases he

theorem onlyLogs_cons (ts : Nat) (m : String) (l : List Event) (h : onlyLogs l) :
    onlyLogs (Event.log ts m :: l) := by
  intro e he
  rcases List.mem_cons.mp he with rfl | he
  · exact ⟨ts, m, rfl⟩
  · exact h e he

theorem onlyLogs_append (a b : List Event) (ha : onlyLogs a) (hb : onlyLogs b) :
    onlyLogs (a ++ b) := by
  intro e he
  rcases List.mem_append.mp he with he | he
  · exact ha e he
  · exact hb e he

theorem dispatched_onlyLogs (l : List Event) (h : onlyLogs l) : dispatched l = [] := by
  induction l with
  | nil => rfl
  | cons e l ih =>
    obtain ⟨ts, m, rfl⟩ := h e (List.mem_cons_self _ _)
    have := ih (fun x hx => h x (List.mem_cons_of_mem _ hx))
    simpa [dispatched_cons] using this

theorem handlerCalls_onlyLogs (l : List Event) (h : onlyLogs l) : handlerCalls l = [] := by
  induction l with
  | nil => rfl
  | cons e l ih =>
    obtain ⟨ts, m, rfl⟩ := h e (List.mem_cons_self _ _)
    have := ih (fun x hx => h x (List.mem_cons_of_mem _ hx))
    simpa [handlerCalls_cons] using this

theorem posts_onlyLogs (l : List Event) (h : onlyLogs l) : posts l = [] := by
  induction l with
  | nil => rfl
  | cons e l ih =>
    obtain ⟨ts, m, rfl⟩ := h e (List.mem_cons_self _ _)
    have := ih (fun x hx => h x (List.mem_cons_of_mem _ hx))
    simpa [posts_cons] using this

theorem httpGets_onlyLogs (l : List Event) (h : onlyLogs l) : httpGets l = [] := by
  induction l with
  | nil => rfl
  | cons e l ih =>
    obtain ⟨ts, m, rfl⟩ := h e (List.mem_cons_self _ _)
    have := ih (fun x hx => h x (List.mem_cons_of_mem _ hx))
    simpa [httpGets_cons] using this

theorem backendCalls_onlyLogs (l : List Event) (h : onlyLogs l) : backendCalls l = [] := by
  induction l with
  | nil => rfl
  | cons e l ih =>
    obtain ⟨ts, m, rfl⟩ := h e (List.mem_cons_self _ _)
    have := ih (fun x hx => h x (List.mem_cons_of_mem _ hx))
    simpa [backendCalls_cons] using this

/-- What `saveUserToFirestore` does: one Firestore write of the user record
under the document named after the user id, then log lines only; it returns an
error exactly when the write fails. -/
theorem saveUserToFirestore_trace (env : Env) (s : State) (phoneNumber firstName : String)
    (userID : Int) :
    ∃ l, onlyLogs l ∧
      (saveUserToFirestore env s phoneNumber firstName userID).1.trace =
        s.trace ++ Event.firestoreSet "userInfo" (Itoa userID)
          { PhoneNumber := phoneNumber, FirstName := firstName, UserID := userID,
            CreatedAt := env.now s.trace, Email := phoneNumber ++ "@gmail.com",
            Password := generatePassword userID } :: l ∧
      (saveUserToFirestore env s phoneNumber firstName userID).1.bot = s.bot := by
  simp only [saveUserToFirestore]
  split
  · exact ⟨[], onlyLogs_nil, rfl, rfl⟩
  · exact ⟨[_], onlyLogs_cons _ _ _ onlyLogs_nil,
      by rw [log_trace, emit_trace, List.append_assoc]; rfl, rfl⟩

/-- What `createFirebaseUser` does: one Firebase Auth user creation with the
email `phoneNumber@gmail.com`, the generated password and the display name
`User_<id>`, then log lines only. -/
theorem createFirebaseUser_trace (env : Env) (s : State) (phoneNumber : String) (userID : Int) :
    ∃ l, onlyLogs l ∧
      (createFirebaseUser env s phoneNumber userID).1.trace =
        s.trace ++ Event.authCreateUser (phoneNumber ++ "@gmail.com")
          (generatePassword userID) ("User_" ++ Itoa userID) :: l ∧
      (createFirebaseUser env s phoneNumber userID).1.bot = s.bot := by
  simp only [createFirebaseUser]
  split
  · split
    · exact ⟨[_], onlyLogs_cons _ _ _ onlyLogs_nil,
        by rw [log_trace, emit_trace, List.append_assoc]; rfl, rfl⟩
    · exact ⟨[], onlyLogs_nil, rfl, rfl⟩
  · exact ⟨[_], onlyLogs_cons _ _ _ onlyLogs_nil,
      by rw [log_trace, emit_trace, List.append_assoc]; rfl, rfl⟩

/-- What `handleContact` does on a message that carries a contact: it returns,
leaves the bot fields alone, and its trace is a Firestore write, a Firebase
Auth user creation and one POST of the confirmation text to the given chat, in
this order, with log lines only in between. -/
theorem handleContact_trace (env : Env) (s : State) (message : TelegramMessage)
    (contact : TelegramContact) (chatID userID : Int) (hc : message.Contact = some contact) :
    ∃ s1 ts l0 l1 l2 l3, handleContact env s message chatID userID = Exec.done s1 () ∧
      s1.bot = s.bot ∧ onlyLogs l0 ∧ onlyLogs l1 ∧ onlyLogs l2 ∧ onlyLogs l3 ∧
      s1.trace = s.trace ++ l0 ++
        Event.firestoreSet "userInfo" (Itoa contact.UserID)
          { PhoneNumber := contact.PhoneNumber, FirstName := contact.FirstName,
            UserID := contact.UserID, CreatedAt := ts,
            Email := contact.PhoneNumber ++ "@gmail.com",
            Password := generatePassword contact.UserID } :: l1 ++
        Event.authCreateUser (contact.PhoneNumber ++ "@gmail.com")
          (generatePassword contact.UserID) ("User_" ++ Itoa contact.UserID) :: l2 ++
        Event.httpPost (s.bot.BaseURL ++ s.bot.BotToken ++ "/sendMessage")
          { chat_id := chatID,
            text := successMessage contact.PhoneNumber (generatePassword contact.UserID),
            parse_mode := "HTML", reply_markup := none } :: l3 := by
  simp only [handleContact, hc]
  generalize hs1 : log env s _ = s1
  obtain ⟨k1, hk1, ht1, hb1⟩ :=
    saveUserToFirestore_trace env s1 contact.PhoneNumber contact.FirstName contact.UserID
  generalize hs2 : (match saveUserToFirestore env s1 contact.PhoneNumber contact.FirstName
    contact.UserID with
    | (t, some err) => log env t ("saveUserToFirestore xatoligi: " ++ err)
    | (t, none) => t) = s2
  have h2 : ∃ k, onlyLogs k ∧ s2.bot = s1.bot ∧
      s2.trace = (saveUserToFirestore env s1 contact.PhoneNumber contact.FirstName
        contact.UserID).1.trace ++ k := by
    rw [← hs2]
    split
    · rename_i t err heq
      rw [heq]
      exact ⟨[_], onlyLogs_cons _ _ _ onlyLogs_nil, by rw [log_bot, ← hb1, heq], rfl⟩
    · rename_i t heq
      rw [heq]
      exact ⟨[], onlyLogs_nil, by rw [← hb1, heq], by simp⟩
  obtain ⟨k2, hk2, hb2, ht2⟩ := h2
  obtain ⟨k3, hk3, ht3, hb3⟩ :=
    createFirebaseUser_trace env s2 contact.PhoneNumber contact.UserID
  generalize hs3 : (match createFirebaseUser env s2 contact.PhoneNumber contact.UserID with
    | (t, some err) => log env t ("createFirebaseUser xatoligi: " ++ err)
    | (t, none) => t) = s3
  have h3 : ∃ k, onlyLogs k ∧ s3.bot = s2.bot ∧
      s3.trace = (createFirebaseUser env s2 contact.PhoneNumber contact.UserID).1.trace ++ k := by
    rw [← hs3]
    split
    · rename_i t err heq
      rw [heq]
      exact ⟨[_], onlyLogs_cons _ _ _ onlyLogs_nil, by rw [log_bot, ← hb3, heq], rfl⟩
    · rename_i t heq
      rw [heq]
      exact ⟨[], onlyLogs_nil, by rw [← hb3, heq], by simp⟩
  obtain ⟨k4, hk4, hb4, ht4⟩ := h3
  obtain ⟨ts5, m5, ht5⟩ := sendMessage_trace env s3 chatID
    (successMessage contact.PhoneNumber (generatePassword contact.UserID)) none
  have hbot3 : s3.bot = s.bot := by rw [hb4, hb2, ← hs1, log_bot]
  refine ⟨_, env.now s1.trace,
    [Event.log (env.now s.trace)
      ("Kontakt qabul qilindi: " ++ contact.PhoneNumber ++ ", User: " ++ contact.FirstName)],
    k1 ++ k2, k3 ++ k4,
    [Event.log ts5 m5,
      Event.log (env.now (sendMessage env s3 chatID
        (successMessage contact.PhoneNumber (generatePassword contact.UserID)) none).trace)
        ("Ma\x27lumot saqlandi: " ++ contact.PhoneNumber)],
    rfl, ?_, onlyLogs_cons _ _ _ onlyLogs_nil,
    onlyLogs_append _ _ hk1 hk2, onlyLogs_append _ _ hk3 hk4,
    onlyLogs_cons _ _ _ (onlyLogs_cons _ _ _ onlyLogs_nil), ?_⟩
  · rw [log_bot, sendMessage_bot, hbot3]
  · rw [log_trace, ht5, ht4, ht3, ht2, ht1, hbot3, ← hs1, log_trace]
    simp [List.append_assoc]

/-- What `handleStartCommand` does: one POST of the welcome text with the
contact-request keyboard, then two log lines. -/
theorem handleStartCommand_trace (env : Env) (s : State) (chatID userID : Int)
    (firstName username : String) :
    ∃ l, onlyLogs l ∧ (handleStartCommand env s chatID userID firstName username).trace =
      s.trace ++ Event.httpPost (s.bot.BaseURL ++ s.bot.BotToken ++ "/sendMessage")
        { chat_id := chatID, text := welcomeMessage firstName, parse_mode := "HTML",
          reply_markup := some startKeyboard } :: l := by
  obtain ⟨ts, m, ht⟩ :=
    sendMessage_trace env s chatID (welcomeMessage firstName) (some startKeyboard)
  refine ⟨[Event.log ts m, Event.log
    (env.now (sendMessage env s chatID (welcomeMessage firstName) (some startKeyboard)).trace)
    ("Start komandasi yuborildi: " ++ Itoa userID)],
    onlyLogs_cons _ _ _ (onlyLogs_cons _ _ _ onlyLogs_nil), ?_⟩
  simp only [handleStartCommand]
  rw [log_trace, ht]
  simp [List.append_assoc]

@[simp] theorem handleStartCommand_bot (env : Env) (s : State) (chatID userID : Int)
    (firstName username : String) :
    (handleStartCommand env s chatID userID firstName username).bot = s.bot := by
  simp [handleStartCommand]

/-- The effects of `processUpdate` on a message that has a chat and a sender,
branch by branch. -/
theorem processUpdate_effects (env : Env) (s : State) (update : TelegramUpdate)
    (message : TelegramMessage) (chat : TelegramChat) (sender : TelegramUser)
    (hm : update.Message = some message) (hchat : message.Chat = some chat)
    (hfrom : message.From = some sender) :
    ∃ s1 l, processUpdate env s update = Exec.done s1 () ∧ s1.bot = s.bot ∧
      s1.trace = s.trace ++ l ∧ dispatched l = [] ∧ httpGets l = [] ∧
      (message.Text = "/start" →
        handlerCalls l =
          [Call.handleStartCommand chat.ID sender.ID sender.FirstName sender.Username] ∧
        posts l = [(s.bot.BaseURL ++ s.bot.BotToken ++ "/sendMessage",
          { chat_id := chat.ID, text := welcomeMessage sender.FirstName, parse_mode := "HTML",
            reply_markup := some startKeyboard })] ∧
        backendCalls l = []) ∧
      (message.Text ≠ "/start" → ∀ contact, message.Contact = some contact →
        handlerCalls l = [Call.handleContact message chat.ID sender.ID] ∧
        posts l = [(s.bot.BaseURL ++ s.bot.BotToken ++ "/sendMessage",
          { chat_id := chat.ID,
            text := successMessage contact.PhoneNumber (generatePassword contact.UserID),
            parse_mode := "HTML", reply_markup := none })] ∧
        (backendCalls l).length = 2) ∧
      (message.Text ≠ "/start" → message.Contact = none → message.Text ≠ "" →
        handlerCalls l = [] ∧
        posts l = [(s.bot.BaseURL ++ s.bot.BotToken ++ "/sendMessage",
          { chat_id := chat.ID, text := "Sizning xabaringiz qabul qilindi: " ++ message.Text,
            parse_mode := "HTML", reply_markup := none })] ∧
        backendCalls l = []) ∧
      (message.Text ≠ "/start" → message.Contact = none → message.Text = "" →
        onlyLogs l) := by
  simp only [processUpdate, hm, hchat, hfrom]
  by_cases hstart : message.Text = "/start"
  · simp only [hstart, if_true]
    obtain ⟨k, hk, ht⟩ := handleStartCommand_trace env
      (emit (log env s ("Yangi xabar: User ID " ++ Itoa sender.ID ++ ", Name: " ++
        sender.FirstName))
        (Event.call (Call.handleStartCommand chat.ID sender.ID sender.FirstName
          sender.Username)))
      chat.ID sender.ID sender.FirstName sender.Username
    refine ⟨_, ?l1, rfl, by simp, ?ht1, ?rest1⟩
    case ht1 =>
      rw [ht, emit_trace, log_trace, emit_bot, log_bot, List.append_assoc, List.append_assoc]
      exact rfl
    case rest1 =>
      simp [dispatched_append, httpGets_append, handlerCalls_append, posts_append,
        backendCalls_append, dispatched_cons, httpGets_cons, handlerCalls_cons, posts_cons,
        backendCalls_cons, dispatched_onlyLogs _ hk, httpGets_onlyLogs _ hk,
        handlerCalls_onlyLogs _ hk, posts_onlyLogs _ hk, backendCalls_onlyLogs _ hk]
  · simp only [hstart, if_false]
    cases hcontact : message.Contact with
    | some contact =>
      simp only [Option.isSome_some, if_true]
      obtain ⟨s1, ts, l0, l1, l2, l3, hdone, hbot, h0, h1, h2, h3, ht⟩ :=
        handleContact_trace env
          (emit (log env s ("Yangi xabar: User ID " ++ Itoa sender.ID ++ ", Name: " ++
            sender.FirstName))
            (Event.call (Call.handleContact message chat.ID sender.ID)))
          message contact chat.ID sender.ID hcontact
      refine ⟨s1, ?l2, hdone, by simpa using hbot, ?ht2, ?rest2⟩
      case ht2 =>
        rw [ht, emit_trace, log_trace, emit_bot, log_bot]
        simp only [List.append_assoc]
        exact rfl
      case rest2 =>
        simp [dispatched_append, httpGets_append, handlerCalls_append, posts_append,
          backendCalls_append, dispatched_cons, httpGets_cons, handlerCalls_cons, posts_cons,
          backendCalls_cons, dispatched_onlyLogs _ h0, httpGets_onlyLogs _ h0,
          handlerCalls_onlyLogs _ h0, posts_onlyLogs _ h0, backendCalls_onlyLogs _ h0,
          dispatched_onlyLogs _ h1, httpGets_onlyLogs _ h1,
          handlerCalls_onlyLogs _ h1, posts_onlyLogs _ h1, backendCalls_onlyLogs _ h1,
          dispatched_onlyLogs _ h2, httpGets_onlyLogs _ h2,
          handlerCalls_onlyLogs _ h2, posts_onlyLogs _ h2, backendCalls_onlyLogs _ h2,
          dispatched_onlyLogs _ h3, httpGets_onlyLogs _ h3,
          handlerCalls_onlyLogs _ h3, posts_onlyLogs _ h3, backendCalls_onlyLogs _ h3, hstart]
    | none =>
      simp only [Option.isSome_none, Bool.false_eq_true, if_false]
      by_cases htext : message.Text = ""
      · simp only [htext, ne_eq, not_true_eq_false, if_false]
        refine ⟨_, [_], rfl, by simp, by rw [log_trace], ?_⟩
        simp [dispatched_cons, httpGets_cons]
        exact onlyLogs_cons _ _ _ onlyLogs_nil
      · simp only [ne_eq, htext, not_false_eq_true, if_true]
        obtain ⟨ts, m, ht⟩ := sendMessage_trace env
          (log env (log env s ("Yangi xabar: User ID " ++ Itoa sender.ID ++ ", Name: " ++
            sender.FirstName)) ("Matn xabar: " ++ message.Text)) chat.ID
          ("Sizning xabaringiz qabul qilindi: " ++ message.Text) none
        refine ⟨_, ?l3, rfl, by simp, ?ht3, ?rest3⟩
        case ht3 =>
          rw [ht, log_trace, log_trace, log_bot, log_bot, List.append_assoc, List.append_assoc]
          exact rfl
        case rest3 =>
          simp [dispatched_append, httpGets_append, handlerCalls_append, posts_append,
            backendCalls_append, dispatched_cons, httpGets_cons, handlerCalls_cons, posts_cons,
            backendCalls_cons, hstart, htext]

/-- On any update `processUpdate` leaves the bot fields alone, makes no poll
request, hands nothing to itself, enters at most one handler and sends at most
one message. -/
theorem processUpdate_frame (env : Env) (s : State) (update : TelegramUpdate) :
    ∃ l, (processUpdate env s update).state.trace = s.trace ++ l ∧
      (processUpdate env s update).state.bot = s.bot ∧
      dispatched l = [] ∧ httpGets l = [] ∧
      (handlerCalls l).length ≤ 1 ∧ (posts l).length ≤ 1 := by
  cases hm : update.Message with
  | none => exact ⟨[], by simp [processUpdate, hm, Exec.state], by
      simp [processUpdate, hm, Exec.state], rfl, rfl, by simp, by simp⟩
  | some message =>
    cases hchat : message.Chat with
    | none => exact ⟨[], by simp [processUpdate, hm, hchat, Exec.state], by
        simp [processUpdate, hm, hchat, Exec.state], rfl, rfl, by simp, by simp⟩
    | some chat =>
      cases hfrom : message.From with
      | none => exact ⟨[], by simp [processUpdate, hm, hchat, hfrom, Exec.state], by
          simp [processUpdate, hm, hchat, hfrom, Exec.state], rfl, rfl, by simp, by simp⟩
      | some sender =>
        obtain ⟨s1, l, hdone, hbot, ht, hd, hg, hstart, hcontact, htext, hnone⟩ :=
          processUpdate_effects env s update message chat sender hm hchat hfrom
        refine ⟨l, by rw [hdone]; exact ht, by rw [hdone]; exact hbot, hd, hg, ?_⟩
        by_cases h1 : message.Text = "/start"
        · obtain ⟨a, b, _⟩ := hstart h1
          simp [a, b]
        · cases h2 : message.Contact with
          | some contact =>
            obtain ⟨a, b, _⟩ := hcontact h1 contact h2
            simp [a, b]
          | none =>
            by_cases h3 : message.Text = ""
            · have hl := hnone h1 h2 h3
              simp [handlerCalls_onlyLogs _ hl, posts_onlyLogs _ hl]
            · obtain ⟨a, b, _⟩ := htext h1 h2 h3
              simp [a, b]

theorem processUpdate_done_of_derefSafe (env : Env) (s : State) (update : TelegramUpdate)
    (h : derefSafe update = true) : ∃ s1, processUpdate env s update = Exec.done s1 () := by
  cases hm : update.Message with
  | none => exact ⟨s, by simp [processUpdate, hm]⟩
  | some message =>
    simp only [derefSafe, hm, Bool.and_eq_true, Option.isSome_iff_exists] at h
    obtain ⟨⟨chat, hchat⟩, ⟨sender, hfrom⟩⟩ := h
    obtain ⟨s1, l, hdone, _⟩ :=
      processUpdate_effects env s update message chat sender hm hchat hfrom
    exact ⟨s1, hdone⟩

theorem processUpdate_panic_of_not_derefSafe (env : Env) (s : State) (update : TelegramUpdate)
    (h : derefSafe update = false) : processUpdate env s update = Exec.panic s := by
  cases hm : update.Message with
  | none => simp [derefSafe, hm] at h
  | some message =>
    cases hchat : message.Chat with
    | none => simp [processUpdate, hm, hchat]
    | some chat =>
      cases hfrom : message.From with
      | none => simp [processUpdate, hm, hchat, hfrom]
      | some sender => simp [derefSafe, hm, hchat, hfrom] at h

/-! ### The loop of `getUpdates` -/

theorem getUpdatesLoop_cons (env : Env) (s : State) (update : TelegramUpdate)
    (rest : List TelegramUpdate) :
    getUpdatesLoop env s (update :: rest) =
      match processUpdate env
        (emit { s with bot := { s.bot with LastUpdateID := update.UpdateID } }
          (Event.call (Call.processUpdate update))) update with
      | Exec.done s2 _ => getUpdatesLoop env s2 rest
      | Exec.panic s2 => Exec.panic s2 := rfl

/-- Running the loop over `p ++ q` is running it over `p` and, unless that
panicked, over `q` from the state reached: the states after the prefixes of a
batch are the intermediate states of the loop. -/
theorem getUpdatesLoop_append (env : Env) (p q : List TelegramUpdate) (s : State) :
    getUpdatesLoop env s (p ++ q) =
      match getUpdatesLoop env s p with
      | Exec.done s1 _ => getUpdatesLoop env s1 q
      | Exec.panic s1 => Exec.panic s1 := by
  induction p generalizing s with
  | nil => rfl
  | cons u p ih =>
    rw [List.cons_append, getUpdatesLoop_cons, getUpdatesLoop_cons]
    cases processUpdate env
        (emit { s with bot := { s.bot with LastUpdateID := u.UpdateID } }
          (Event.call (Call.processUpdate u))) u with
    | done s2 r => exact ih s2
    | panic s2 => rfl

/-- When the loop returns, every update of the batch was handed to
`processUpdate` in the order of the batch, no poll request was made, and
`LastUpdateID` holds the id assigned last; the other bot fields are as before. -/
theorem getUpdatesLoop_done (env : Env) (batch : List TelegramUpdate) (s s1 : State)
    (h : getUpdatesLoop env s batch = Exec.done s1 ()) :
    dispatched s1.trace = dispatched s.trace ++ batch ∧
      httpGets s1.trace = httpGets s.trace ∧
      s1.bot = { s.bot with LastUpdateID := lastAssigned s.bot.LastUpdateID batch } := by
  induction batch generalizing s with
  | nil =>
    simp only [getUpdatesLoop, Exec.done.injEq, and_true] at h
    subst h
    simp [lastAssigned]
  | cons u rest ih =>
    rw [getUpdatesLoop_cons] at h
    obtain ⟨l, ht, hb, hd, hg, _⟩ := processUpdate_frame env
      (emit { s with bot := { s.bot with LastUpdateID := u.UpdateID } }
        (Event.call (Call.processUpdate u))) u
    cases hp : processUpdate env
        (emit { s with bot := { s.bot with LastUpdateID := u.UpdateID } }
          (Event.call (Call.processUpdate u))) u with
    | panic s2 => simp [hp] at h
    | done s2 r =>
      rw [hp] at h ht hb
      simp only [Exec.state, emit_trace, emit_bot] at ht hb
      obtain ⟨h1, h2, h3⟩ := ih s2 h
      refine ⟨?_, ?_, ?_⟩
      · rw [h1, ht]
        simp [dispatched_append, dispatched_cons, hd]
      · rw [h2, ht]
        simp [httpGets_append, httpGets_cons, hg]
      · rw [h3, hb]
        simp [lastAssigned]

/-- The loop returns when no update of the batch makes `processUpdate` read
through a nil pointer. -/
theorem getUpdatesLoop_total (env : Env) (batch : List TelegramUpdate) (s : State)
    (h : ∀ u ∈ batch, derefSafe u = true) :
    ∃ s1, getUpdatesLoop env s batch = Exec.done s1 () := by
  induction batch generalizing s with
  | nil => exact ⟨s, rfl⟩
  | cons u rest ih =>
    rw [getUpdatesLoop_cons]
    obtain ⟨s2, h2⟩ := processUpdate_done_of_derefSafe env
      (emit { s with bot := { s.bot with LastUpdateID := u.UpdateID } }
        (Event.call (Call.processUpdate u))) u (h u (List.mem_cons_self _ _))
    rw [h2]
    exact ih s2 (fun x hx => h x (List.mem_cons_of_mem _ hx))

/-- However the loop ends, the updates handed to `processUpdate` are an
initial stretch of the batch, in the order of the batch, and no poll request
was made. -/
theorem getUpdatesLoop_dispatched (env : Env) (batch : List TelegramUpdate) (s : State) :
    ∃ p, p <+: batch ∧
      dispatched (getUpdatesLoop env s batch).state.trace = dispatched s.trace ++ p ∧
      httpGets (getUpdatesLoop env s batch).state.trace = httpGets s.trace := by
  induction batch generalizing s with
  | nil => exact ⟨[], ⟨[], rfl⟩, by simp [getUpdatesLoop, Exec.state], rfl⟩
  | cons u rest ih =>
    rw [getUpdatesLoop_cons]
    obtain ⟨l, ht, hb, hd, hg, _⟩ := processUpdate_frame env
      (emit { s with bot := { s.bot with LastUpdateID := u.UpdateID } }
        (Event.call (Call.processUpdate u))) u
    cases hp : processUpdate env
        (emit { s with bot := { s.bot with LastUpdateID := u.UpdateID } }
          (Event.call (Call.processUpdate u))) u with
    | panic s2 =>
      rw [hp] at ht
      simp only [Exec.state, emit_trace] at ht
      refine ⟨[u], ⟨rest, rfl⟩, ?_, ?_⟩
      · simp [Exec.state, ht, dispatched_append, dispatched_cons, hd]
      · simp [Exec.state, ht, httpGets_append, httpGets_cons, hg]
    | done s2 r =>
      rw [hp] at ht
      simp only [Exec.state, emit_trace] at ht
      obtain ⟨p, ⟨t, hpt⟩, h1, h2⟩ := ih s2
      refine ⟨u :: p, ⟨t, by rw [List.cons_append, hpt]⟩, ?_, ?_⟩
      · simp only []
        rw [h1, ht]
        simp [dispatched_append, dispatched_cons, hd]
      · simp only []
        rw [h2, ht]
        simp [httpGets_append, httpGets_cons, hg]

/-- The cursor in the state in which the loop ends (returned or panicked) is
the id assigned last among the updates that were reached. -/
theorem getUpdatesLoop_cursor_ge (env : Env) (batch : List TelegramUpdate) (s : State)
    (h : List.Chain (fun a b => a ≤ b) s.bot.LastUpdateID (batch.map fun u => u.UpdateID)) :
    s.bot.LastUpdateID ≤ (getUpdatesLoop env s batch).state.bot.LastUpdateID := by
  induction batch generalizing s with
  | nil => simp [getUpdatesLoop, Exec.state]
  | cons u rest ih =>
    rw [getUpdatesLoop_cons]
    rw [List.map_cons, List.chain_cons] at h
    obtain ⟨l, ht, hb, _⟩ := processUpdate_frame env
      (emit { s with bot := { s.bot with LastUpdateID := u.UpdateID } }
        (Event.call (Call.processUpdate u))) u
    cases hp : processUpdate env
        (emit { s with bot := { s.bot with LastUpdateID := u.UpdateID } }
          (Event.call (Call.processUpdate u))) u with
    | panic s2 =>
      rw [hp] at hb
      simp only [Exec.state, emit_bot] at hb
      simp only [Exec.state, hb]
      exact h.1
    | done s2 r =>
      rw [hp] at hb
      simp only [Exec.state, emit_bot] at hb
      have h2 : s2.bot.LastUpdateID = u.UpdateID := by rw [hb]
      have := ih s2 (by rw [h2]; exact h.2)
      simp only []
      omega

/-- With ids that never go down from the cursor on, the cursor after any
initial stretch of the batch is at least the old cursor and at most the
cursor after any longer stretch. -/
theorem getUpdatesLoop_cursor_mono (env : Env) (p q : List TelegramUpdate) (s : State)
    (h : List.Chain (fun a b => a ≤ b) s.bot.LastUpdateID
      ((p ++ q).map fun u => u.UpdateID)) :
    s.bot.LastUpdateID ≤ (getUpdatesLoop env s p).state.bot.LastUpdateID ∧
      (getUpdatesLoop env s p).state.bot.LastUpdateID ≤
        (getUpdatesLoop env s (p ++ q)).state.bot.LastUpdateID := by
  induction p generalizing s with
  | nil =>
    refine ⟨by simp [getUpdatesLoop, Exec.state], ?_⟩
    simpa [getUpdatesLoop, Exec.state] using getUpdatesLoop_cursor_ge env q s (by simpa using h)
  | cons u p ih =>
    rw [List.cons_append, getUpdatesLoop_cons, getUpdatesLoop_cons]
    rw [List.cons_append, List.map_cons, List.chain_cons] at h
    obtain ⟨l, ht, hb, _⟩ := processUpdate_frame env
      (emit { s with bot := { s.bot with LastUpdateID := u.UpdateID } }
        (Event.call (Call.processUpdate u))) u
    cases hp : processUpdate env
        (emit { s with bot := { s.bot with LastUpdateID := u.UpdateID } }
          (Event.call (Call.processUpdate u))) u with
    | panic s2 =>
      rw [hp] at hb
      simp only [Exec.state, emit_bot] at hb
      simp only [Exec.state, hb]
      exact ⟨h.1, le_refl _⟩
    | done s2 r =>
      rw [hp] at hb
      simp only [Exec.state, emit_bot] at hb
      have h2 : s2.bot.LastUpdateID = u.UpdateID := by rw [hb]
      obtain ⟨a, b⟩ := ih s2 (by rw [h2]; exact h.2)
      simp only []
      exact ⟨by omega, b⟩

theorem lastAssigned_eq_getLast (cursor : Int) (batch : List TelegramUpdate)
    (hne : batch ≠ []) : lastAssigned cursor batch = (batch.getLast hne).UpdateID := by
  induction batch generalizing cursor with
  | nil => exact absurd rfl hne
  | cons u rest ih =>
    cases rest with
    | nil => rfl
    | cons v rest =>
      have := ih u.UpdateID (by simp)
      simpa [lastAssigned] using this

theorem chain_left_of_append (a : Int) (l1 l2 : List Int)
    (h : List.Chain (fun x y => x ≤ y) a (l1 ++ l2)) : List.Chain (fun x y => x ≤ y) a l1 := by
  induction l1 generalizing a with
  | nil => exact List.Chain.nil
  | cons b l1 ih =>
    rw [List.cons_append, List.chain_cons] at h
    exact List.Chain.cons h.1 (ih b h.2)

theorem le_getLast_of_pairwise (batch : List TelegramUpdate) (hne : batch ≠ [])
    (h : List.Pairwise (fun a b => a.UpdateID ≤ b.UpdateID) batch) :
    ∀ u ∈ batch, u.UpdateID ≤ (batch.getLast hne).UpdateID := by
  induction batch with
  | nil => exact absurd rfl hne
  | cons a rest ih =>
    intro u hu
    cases rest with
    | nil =>
      rcases List.mem_singleton.mp hu with rfl
      exact le_refl _
    | cons b rest =>
      rw [List.pairwise_cons] at h
      rw [List.getLast_cons (by simp)]
      rcases List.mem_cons.mp hu with rfl | hu
      · exact h.1 _ (List.getLast_mem _)
      · exact ih (by simp) h.2 u hu

/-! ### `getUpdates` -/

theorem exec_state_relabel (r : Exec Unit) :
    (match r with
      | Exec.done s2 _ => (Exec.done s2 none : Exec (Option String))
      | Exec.panic s2 => Exec.panic s2).state = r.state := by
  cases r <;> rfl

/-- On a decoded answer with status 200 and `ok = true`, `getUpdates` is the
loop over the batch. -/
theorem getUpdates_of_batch (env : Env) (s : State) (resp : TelegramResponse)
    (hfetch : fetchOutcome env s = HttpGetOutcome.response 200 (Except.ok resp))
    (hok : resp.OK = true) :
    getUpdates env s =
      match getUpdatesLoop env (emit s (Event.httpGet (getUpdatesURL s.bot))) resp.Result with
      | Exec.done s2 _ => Exec.done s2 none
      | Exec.panic s2 => Exec.panic s2 := by
  unfold fetchOutcome at hfetch
  simp only [getUpdates, hfetch, hok]
  cases hres : resp.Result with
  | nil => simp [getUpdatesLoop]
  | cons u rest => simp

/-- Either a non-empty batch was fetched with status 200 and `ok = true`, or
`getUpdates` returns right after the poll request. -/
theorem getUpdates_cases (env : Env) (s : State) :
    (∃ resp, fetchOutcome env s = HttpGetOutcome.response 200 (Except.ok resp) ∧
      resp.OK = true ∧ resp.Result ≠ []) ∨
    (∃ r, getUpdates env s = Exec.done (emit s (Event.httpGet (getUpdatesURL s.bot))) r) := by
  unfold fetchOutcome
  simp only [getUpdates]
  split
  · exact Or.inr ⟨_, rfl⟩
  · rename_i code body heq
    split
    · exact Or.inr ⟨_, rfl⟩
    · rename_i hcode
      have hcode2 : code = 200 := Decidable.not_not.mp hcode
      subst hcode2
      split
      · exact Or.inr ⟨_, rfl⟩
      · rename_i resp
        split
        · rename_i hcond
          simp only [Bool.and_eq_true, decide_eq_true_eq] at hcond
          refine Or.inl ⟨resp, heq, hcond.1, ?_⟩
          intro hnil
          rw [hnil] at hcond
          exact absurd hcond.2 (by simp)
        · exact Or.inr ⟨_, rfl⟩

/-- Whenever `getUpdates` returns an error, the fetch failed in one of the
three ways and the only thing done was the poll request. -/
theorem getUpdates_error (env : Env) (s s1 : State) (err : String)
    (h : getUpdates env s = Exec.done s1 (some err)) :
    fetchFailed (fetchOutcome env s) = true ∧
      s1 = emit s (Event.httpGet (getUpdatesURL s.bot)) := by
  unfold fetchOutcome
  simp only [getUpdates] at h
  split at h
  · rename_i e heq
    rw [heq]
    simp only [Exec.done.injEq] at h
    exact ⟨rfl, h.1.symm⟩
  · rename_i code body heq
    rw [heq]
    split at h
    · rename_i hcode
      simp only [Exec.done.injEq] at h
      refine ⟨?_, h.1.symm⟩
      cases body <;> simp [fetchFailed, hcode]
    · split at h
      · simp only [Exec.done.injEq] at h
        exact ⟨rfl, h.1.symm⟩
      · split at h
        · split at h <;> simp at h
        · simp at h

/-- Every fetch failure makes `getUpdates` return an error. -/
theorem getUpdates_error_of_fetchFailed (env : Env) (s : State)
    (h : fetchFailed (fetchOutcome env s) = true) :
    ∃ err, getUpdates env s =
      Exec.done (emit s (Event.httpGet (getUpdatesURL s.bot))) (some err) := by
  unfold fetchOutcome at h
  simp only [getUpdates]
  split
  · exact ⟨_, rfl⟩
  · rename_i code body heq
    rw [heq] at h
    split
    · exact ⟨_, rfl⟩
    · rename_i hcode
      split
      · exact ⟨_, rfl⟩
      · simp [fetchFailed, hcode] at h

/-- Each call of `getUpdates` makes exactly one poll request, to the URL
computed from the bot fields. -/
theorem getUpdates_httpGets (env : Env) (s : State) :
    httpGets (getUpdates env s).state.trace = httpGets s.trace ++ [getUpdatesURL s.bot] := by
  have hbase : httpGets (emit s (Event.httpGet (getUpdatesURL s.bot))).trace =
      httpGets s.trace ++ [getUpdatesURL s.bot] := by
    simp [httpGets_append, httpGets_cons]
  simp only [getUpdates]
  split
  · exact hbase
  · split
    · exact hbase
    · split
      · exact hbase
      · rename_i resp heq
        split
        · obtain ⟨p, _, _, hg⟩ := getUpdatesLoop_dispatched env resp.Result
            (emit s (Event.httpGet (getUpdatesURL s.bot)))
          rw [exec_state_relabel, hg]
          exact hbase
        · exact hbase

/-! ### The claims about the polling loop -/

/-- C3 (as amended): after a successful fetch (status 200, `ok = true`) of a
non-empty batch, whenever `getUpdates` returns, `LastUpdateID` equals the
`UpdateID` of the last update of the batch in arrival order; this is the
maximum id of the batch when the batch arrives in ascending order.
`getUpdates` does return when no update of the batch lacks a chat or a
sender. -/
theorem getUpdates_cursor_is_last_update (env : Env) (s : State) (resp : TelegramResponse)
    (hfetch : fetchOutcome env s = HttpGetOutcome.response 200 (Except.ok resp))
    (hok : resp.OK = true) (hne : resp.Result ≠ []) :
    (∀ s1 r, getUpdates env s = Exec.done s1 r →
      r = none ∧ s1.bot.LastUpdateID = (resp.Result.getLast hne).UpdateID ∧
      (List.Pairwise (fun a b => a.UpdateID ≤ b.UpdateID) resp.Result →
        ∀ u ∈ resp.Result, u.UpdateID ≤ s1.bot.LastUpdateID)) ∧
    ((∀ u ∈ resp.Result, derefSafe u = true) →
      ∃ s1, getUpdates env s = Exec.done s1 none) := by
  rw [getUpdates_of_batch env s resp hfetch hok]
  constructor
  · intro s1 r h
    cases hl : getUpdatesLoop env (emit s (Event.httpGet (getUpdatesURL s.bot))) resp.Result with
    | panic s2 => simp [hl] at h
    | done s2 u =>
      rw [hl] at h
      simp only [Exec.done.injEq] at h
      obtain ⟨rfl, rfl⟩ := h
      obtain ⟨_, _, hb⟩ := getUpdatesLoop_done env resp.Result _ s2 hl
      have hcur : s2.bot.LastUpdateID = (resp.Result.getLast hne).UpdateID := by
        rw [hb]
        exact lastAssigned_eq_getLast _ _ hne
      refine ⟨rfl, hcur, ?_⟩
      intro hsorted u hu
      rw [hcur]
      exact le_getLast_of_pairwise resp.Result hne hsorted u hu
  · intro hsafe
    obtain ⟨s2, h2⟩ := getUpdatesLoop_total env resp.Result
      (emit s (Event.httpGet (getUpdatesURL s.bot))) hsafe
    exact ⟨s2, by rw [h2]⟩

theorem getUpdates_cursor_is_last_update_witness :
    ∃ s1, getUpdates (worldReturning ascendingBatch) initialState = Exec.done s1 none :=
  (getUpdates_cursor_is_last_update (worldReturning ascendingBatch) initialState
    { OK := true, Result := ascendingBatch } rfl rfl (by decide)).2 (by decide)

/-- C3, counterexample: for the batch with ids 5, 7, 6 (in this arrival order)
`getUpdates` returns with the cursor at 6, while the maximum id is 7. -/
theorem getUpdates_out_of_order_cursor_is_not_max :
    (∃ s1, getUpdates (worldReturning outOfOrderBatch) initialState = Exec.done s1 none ∧
      s1.bot.LastUpdateID = 6) ∧
    (outOfOrderBatch.map fun u => u.UpdateID) = [5, 7, 6] ∧
    (outOfOrderBatch.map fun u => u.UpdateID).max? = some 7 :=
  ⟨⟨_, rfl, rfl⟩, by decide, by decide⟩

/-- C4 (as amended): the cursor never decreases provided the ids of a fetched
batch never go down, starting from the current cursor (what a transport that
honours the requested offset delivers).  For every bot state and every fetch
outcome of this kind (error, empty batch, or such a batch) `LastUpdateID` after
`getUpdates` is at least `LastUpdateID` before it; the cursor after any initial
stretch of the batch is at least the old cursor and at most the cursor after
any longer stretch; and unless a non-empty batch was fetched with `ok = true`
the bot fields are unchanged. -/
theorem getUpdates_cursor_nondecreasing_of_ascending (env : Env) (s : State)
    (hasc : ∀ resp, fetchOutcome env s = HttpGetOutcome.response 200 (Except.ok resp) →
      resp.OK = true →
      List.Chain (fun a b => a ≤ b) s.bot.LastUpdateID (resp.Result.map fun u => u.UpdateID)) :
    s.bot.LastUpdateID ≤ (getUpdates env s).state.bot.LastUpdateID ∧
    (∀ resp, fetchOutcome env s = HttpGetOutcome.response 200 (Except.ok resp) →
      resp.OK = true → ∀ p q r, resp.Result = p ++ q ++ r →
        s.bot.LastUpdateID ≤
          (getUpdatesLoop env (emit s (Event.httpGet (getUpdatesURL s.bot))) p).state.bot.LastUpdateID ∧
        (getUpdatesLoop env (emit s (Event.httpGet (getUpdatesURL s.bot))) p).state.bot.LastUpdateID ≤
          (getUpdatesLoop env (emit s (Event.httpGet (getUpdatesURL s.bot)))
            (p ++ q)).state.bot.LastUpdateID) ∧
    ((∀ resp, fetchOutcome env s = HttpGetOutcome.response 200 (Except.ok resp) →
        resp.OK = false ∨ resp.Result = []) →
      (getUpdates env s).state.bot = s.bot) := by
  refine ⟨?_, ?_, ?_⟩
  · rcases getUpdates_cases env s with ⟨resp, hfetch, hok, _⟩ | ⟨r, hr⟩
    · rw [getUpdates_of_batch env s resp hfetch hok, exec_state_relabel]
      exact getUpdatesLoop_cursor_ge env resp.Result
        (emit s (Event.httpGet (getUpdatesURL s.bot))) (hasc resp hfetch hok)
    · rw [hr]
      exact le_refl _
  · intro resp hfetch hok p q r hres
    have hchain := hasc resp hfetch hok
    rw [hres, List.map_append] at hchain
    have h2 := chain_left_of_append _ _ _ hchain
    exact getUpdatesLoop_cursor_mono env p q (emit s (Event.httpGet (getUpdatesURL s.bot))) h2
  · intro hnone
    rcases getUpdates_cases env s with ⟨resp, hfetch, hok, hne⟩ | ⟨r, hr⟩
    · rcases hnone resp hfetch with h | h
      · rw [hok] at h
        cases h
      · exact absurd h hne
    · rw [hr]
      rfl

theorem getUpdates_cursor_nondecreasing_of_ascending_witness :
    initialState.bot.LastUpdateID ≤
      (getUpdates (worldReturning ascendingBatch) initialState).state.bot.LastUpdateID :=
  (getUpdates_cursor_nondecreasing_of_ascending (worldReturning ascendingBatch) initialState
    (by
      intro resp h _
      simp only [fetchOutcome, worldReturning, HttpGetOutcome.response.injEq,
        Except.ok.injEq, true_and] at h
      subst h
      simp [ascendingBatch, greetUpdate, textUpdate, contactUpdate, initialState])).1

/-- C4, counterexample: with the cursor at 10, a successful fetch that returns
one update with id 3 leaves the cursor at 3; and for the batch with ids 5, 7, 6
the cursor stands at 7 after the first two updates and at 6 after the third. -/
theorem getUpdates_cursor_can_decrease :
    laterState.bot.LastUpdateID = 10 ∧
    (getUpdates (worldReturning [textUpdate 3]) laterState).state.bot.LastUpdateID = 3 ∧
    (getUpdatesLoop (worldReturning outOfOrderBatch) initialState
      (outOfOrderBatch.take 2)).state.bot.LastUpdateID = 7 ∧
    (getUpdatesLoop (worldReturning outOfOrderBatch) initialState
      outOfOrderBatch).state.bot.LastUpdateID = 6 :=
  ⟨rfl, rfl, rfl, rfl⟩

/-- C5 (as amended): after a successful fetch `getUpdates` hands the updates
to `processUpdate` in the order in which they appear in the response (so in
ascending id order exactly when they arrive in ascending order): the updates
dispatched are always an initial stretch of the batch, they are the whole
batch whenever `getUpdates` returns, and it returns when no update of the
batch lacks a chat or a sender. -/
theorem getUpdates_dispatches_in_arrival_order (env : Env) (s : State)
    (resp : TelegramResponse)
    (hfetch : fetchOutcome env s = HttpGetOutcome.response 200 (Except.ok resp))
    (hok : resp.OK = true) :
    (∃ p, p <+: resp.Result ∧
      dispatched (getUpdates env s).state.trace = dispatched s.trace ++ p) ∧
    (∀ s1 r, getUpdates env s = Exec.done s1 r →
      dispatched s1.trace = dispatched s.trace ++ resp.Result) ∧
    ((∀ u ∈ resp.Result, derefSafe u = true) →
      ∃ s1, getUpdates env s = Exec.done s1 none) := by
  rw [getUpdates_of_batch env s resp hfetch hok]
  have hbase : dispatched (emit s (Event.httpGet (getUpdatesURL s.bot))).trace =
      dispatched s.trace := by
    simp [dispatched_append, dispatched_cons]
  refine ⟨?_, ?_, ?_⟩
  · obtain ⟨p, hp, hd, _⟩ := getUpdatesLoop_dispatched env resp.Result
      (emit s (Event.httpGet (getUpdatesURL s.bot)))
    exact ⟨p, hp, by rw [exec_state_relabel, hd, hbase]⟩
  · intro s1 r h
    cases hl : getUpdatesLoop env (emit s (Event.httpGet (getUpdatesURL s.bot))) resp.Result with
    | panic s2 => simp [hl] at h
    | done s2 u =>
      rw [hl] at h
      simp only [Exec.done.injEq] at h
      obtain ⟨rfl, rfl⟩ := h
      obtain ⟨hd, _, _⟩ := getUpdatesLoop_done env resp.Result _ s2 hl
      rw [hd, hbase]
  · intro hsafe
    obtain ⟨s2, h2⟩ := getUpdatesLoop_total env resp.Result
      (emit s (Event.httpGet (getUpdatesURL s.bot))) hsafe
    exact ⟨s2, by rw [h2]⟩

theorem getUpdates_dispatches_in_arrival_order_witness :
    ∃ p, p <+: ascendingBatch ∧
      dispatched (getUpdates (worldReturning ascendingBatch) initialState).state.trace =
        dispatched initialState.trace ++ p :=
  (getUpdates_dispatches_in_arrival_order (worldReturning ascendingBatch) initialState
    { OK := true, Result := ascendingBatch } rfl rfl).1

/-- C5, counterexample: for the arrival order 5, 7, 6 the updates are handed to
`processUpdate` in the order 5, 7, 6, not 5, 6, 7. -/
theorem getUpdates_out_of_order_dispatch :
    (dispatched (getUpdates (worldReturning outOfOrderBatch) initialState).state.trace).map
        (fun u => u.UpdateID) = [5, 7, 6] ∧
      ([5, 7, 6] : List Int) ≠ [5, 6, 7] :=
  ⟨by decide, by decide⟩

/-- C6: whenever `getUpdates` returns an error, the fetch failed in one of the
three ways (request failed, status not 200, body not decodable), the bot
fields, `LastUpdateID` among them, are unchanged, nothing was dispatched and
nothing was sent; the loop of `startBot` then logs, sleeps and polls again, and
that next poll requests the very same URL, hence the same offset.  Conversely
each of the three failures makes `getUpdates` return an error. -/
theorem getUpdates_error_keeps_cursor (env : Env) (s s1 : State) (err : String)
    (h : getUpdates env s = Exec.done s1 (some err)) :
    fetchFailed (fetchOutcome env s) = true ∧
    s1.bot = s.bot ∧
    s1.trace = s.trace ++ [Event.httpGet (getUpdatesURL s.bot)] ∧
    dispatched s1.trace = dispatched s.trace ∧
    posts s1.trace = posts s.trace ∧
    getUpdatesURL s1.bot = getUpdatesURL s.bot ∧
    (∃ s2, startBotIteration env s = Exec.done s2 () ∧ s2.bot = s.bot ∧
      dispatched s2.trace = dispatched s.trace ∧
      httpGets (getUpdates env s2).state.trace =
        httpGets s.trace ++ [getUpdatesURL s.bot, getUpdatesURL s.bot]) ∧
    (∀ env2 s3, fetchFailed (fetchOutcome env2 s3) = true →
      ∃ e, getUpdates env2 s3 =
        Exec.done (emit s3 (Event.httpGet (getUpdatesURL s3.bot))) (some e)) := by
  obtain ⟨hfail, hs1⟩ := getUpdates_error env s s1 err h
  subst hs1
  refine ⟨hfail, rfl, rfl, ?_, ?_, rfl, ?_, ?_⟩
  · simp [dispatched_append, dispatched_cons]
  · simp [posts_append, posts_cons]
  · refine ⟨emit (log env (emit s (Event.httpGet (getUpdatesURL s.bot)))
      ("Bot xatoligi: " ++ err)) (Event.sleep 5), by simp only [startBotIteration, h], rfl, ?_, ?_⟩
    · simp [dispatched_append, dispatched_cons]
    · rw [getUpdates_httpGets]
      simp [httpGets_append, httpGets_cons, getUpdatesURL]
  · intro env2 s3 h3
    exact getUpdates_error_of_fetchFailed env2 s3 h3

theorem getUpdates_error_keeps_cursor_witness :
    getUpdates worldFailing initialState =
        Exec.done (emit initialState (Event.httpGet (getUpdatesURL initialState.bot)))
          (some "timeout") ∧
      (emit initialState (Event.httpGet (getUpdatesURL initialState.bot))).bot =
        initialState.bot :=
  ⟨rfl, (getUpdates_error_keeps_cursor worldFailing initialState
    (emit initialState (Event.httpGet (getUpdatesURL initialState.bot))) "timeout" rfl).2.1⟩

/-! ### The claims about the router and the handlers -/

/-- C7: an update without a message does nothing.  For an update whose message
has a chat and a sender, `processUpdate` returns after exactly one outcome
chosen by first match: text `/start` enters `handleStartCommand` (one welcome
message with the contact-request keyboard, no backend call), also when a
contact is attached; otherwise an attached contact enters `handleContact` (one
confirmation message); otherwise a non-empty text is echoed by one message and
no handler is entered; otherwise nothing but a log line is produced.  No update
at all enters two handlers or sends more than one message. -/
theorem processUpdate_routes (env : Env) (s : State) (update : TelegramUpdate) :
    (update.Message = none → processUpdate env s update = Exec.done s ()) ∧
    (∀ message chat sender, update.Message = some message → message.Chat = some chat →
        message.From = some sender →
      ∃ s1 l, processUpdate env s update = Exec.done s1 () ∧ s1.bot = s.bot ∧
        s1.trace = s.trace ++ l ∧ dispatched l = [] ∧ httpGets l = [] ∧
        (message.Text = "/start" →
          handlerCalls l =
            [Call.handleStartCommand chat.ID sender.ID sender.FirstName sender.Username] ∧
          posts l = [(s.bot.BaseURL ++ s.bot.BotToken ++ "/sendMessage",
            { chat_id := chat.ID, text := welcomeMessage sender.FirstName,
              parse_mode := "HTML", reply_markup := some startKeyboard })] ∧
          backendCalls l = []) ∧
        (message.Text ≠ "/start" → ∀ contact, message.Contact = some contact →
          handlerCalls l = [Call.handleContact message chat.ID sender.ID] ∧
          posts l = [(s.bot.BaseURL ++ s.bot.BotToken ++ "/sendMessage",
            { chat_id := chat.ID,
              text := successMessage contact.PhoneNumber (generatePassword contact.UserID),
              parse_mode := "HTML", reply_markup := none })] ∧
          (backendCalls l).length = 2) ∧
        (message.Text ≠ "/start" → message.Contact = none → message.Text ≠ "" →
          handlerCalls l = [] ∧
          posts l = [(s.bot.BaseURL ++ s.bot.BotToken ++ "/sendMessage",
            { chat_id := chat.ID,
              text := "Sizning xabaringiz qabul qilindi: " ++ message.Text,
              parse_mode := "HTML", reply_markup := none })] ∧
          backendCalls l = []) ∧
        (message.Text ≠ "/start" → message.Contact = none → message.Text = "" →
          onlyLogs l)) ∧
    (∃ l, (processUpdate env s update).state.trace = s.trace ++ l ∧
      (handlerCalls l).length ≤ 1 ∧ (posts l).length ≤ 1) := by
  refine ⟨?_, ?_, ?_⟩
  · intro hm
    simp [processUpdate, hm]
  · intro message chat sender hm hchat hfrom
    exact processUpdate_effects env s update message chat sender hm hchat hfrom
  · obtain ⟨l, ht, _, _, _, hh, hp⟩ := processUpdate_frame env s update
    exact ⟨l, ht, hh, hp⟩

theorem processUpdate_routes_witness :
    processUpdate worldFailing initialState { UpdateID := 1, Message := none } =
        Exec.done initialState () ∧
      handlerCalls (processUpdate worldFailing initialState greetWithContact).state.trace =
        [Call.handleStartCommand 7 42 "Ali" "ali"] ∧
      backendCalls (processUpdate worldFailing initialState greetWithContact).state.trace = [] := by
  refine ⟨(processUpdate_routes worldFailing initialState
    { UpdateID := 1, Message := none }).1 rfl, ?_⟩
  obtain ⟨s1, l, hdone, _, ht, _, _, hstart, _⟩ :=
    (processUpdate_routes worldFailing initialState greetWithContact).2.1
      (exampleMessage "/start" (some exampleContact)) { ID := 7 } exampleSender rfl rfl rfl
  obtain ⟨h1, _, h3⟩ := hstart rfl
  rw [hdone]
  simp only [Exec.state, ht, handlerCalls_append, backendCalls_append, h1, h3]
  exact ⟨rfl, rfl⟩

theorem successMessage_contains (phoneNumber password : String) :
    stringsContains (successMessage phoneNumber password) phoneNumber ∧
      stringsContains (successMessage phoneNumber password) password := by
  unfold stringsContains successMessage
  simp only [String.data_append]
  exact ⟨⟨_, _, by simp only [List.append_assoc]; exact rfl⟩, ⟨_, _, rfl⟩⟩

/-- C8 (as amended): for every contact share `handleContact` sends one
confirmation reply whose text contains the contact's phone number (the bare
phone number, not the email `phoneNumber@gmail.com` that is persisted and
provisioned) and the secret `generatePassword contact.UserID`. -/
theorem handleContact_reply_contains_phone_and_password (env : Env) (s : State)
    (message : TelegramMessage) (contact : TelegramContact) (chatID userID : Int)
    (hc : message.Contact = some contact) :
    ∃ s1 d info, handleContact env s message chatID userID = Exec.done s1 () ∧
      posts s1.trace = posts s.trace ++ [d] ∧
      d.2.chat_id = chatID ∧
      d.2.text = successMessage contact.PhoneNumber (generatePassword contact.UserID) ∧
      stringsContains d.2.text contact.PhoneNumber ∧
      stringsContains d.2.text (generatePassword contact.UserID) ∧
      backendCalls s1.trace = backendCalls s.trace ++
        [Event.firestoreSet "userInfo" (Itoa contact.UserID) info,
          Event.authCreateUser (contact.PhoneNumber ++ "@gmail.com")
            (generatePassword contact.UserID) ("User_" ++ Itoa contact.UserID)] ∧
      info.Email = contact.PhoneNumber ++ "@gmail.com" ∧
      info.Password = generatePassword contact.UserID := by
  obtain ⟨s1, ts, l0, l1, l2, l3, hdone, _, h0, h1, h2, h3, ht⟩ :=
    handleContact_trace env s message contact chatID userID hc
  refine ⟨s1, (s.bot.BaseURL ++ s.bot.BotToken ++ "/sendMessage",
      { chat_id := chatID,
        text := successMessage contact.PhoneNumber (generatePassword contact.UserID),
        parse_mode := "HTML", reply_markup := none }),
    { PhoneNumber := contact.PhoneNumber, FirstName := contact.FirstName,
      UserID := contact.UserID, CreatedAt := ts,
      Email := contact.PhoneNumber ++ "@gmail.com",
      Password := generatePassword contact.UserID }, hdone, ?_, rfl, rfl,
    (successMessage_contains _ _).1, (successMessage_contains _ _).2, ?_, rfl, rfl⟩
  · rw [ht]
    simp [posts_append, posts_cons, posts_onlyLogs _ h0, posts_onlyLogs _ h1,
      posts_onlyLogs _ h2, posts_onlyLogs _ h3]
  · rw [ht]
    simp [backendCalls_append, backendCalls_cons, backendCalls_onlyLogs _ h0,
      backendCalls_onlyLogs _ h1, backendCalls_onlyLogs _ h2, backendCalls_onlyLogs _ h3]

theorem handleContact_reply_contains_phone_and_password_witness :
    ∃ s1 d info, handleContact worldFailing initialState
        (exampleMessage "" (some exampleContact)) 7 42 = Exec.done s1 () ∧
      posts s1.trace = posts initialState.trace ++ [d] ∧
      d.2.chat_id = 7 ∧
      d.2.text = successMessage exampleContact.PhoneNumber
        (generatePassword exampleContact.UserID) ∧
      stringsContains d.2.text exampleContact.PhoneNumber ∧
      stringsContains d.2.text (generatePassword exampleContact.UserID) ∧
      backendCalls s1.trace = backendCalls initialState.trace ++
        [Event.firestoreSet "userInfo" (Itoa exampleContact.UserID) info,
          Event.authCreateUser (exampleContact.PhoneNumber ++ "@gmail.com")
            (generatePassword exampleContact.UserID)
            ("User_" ++ Itoa exampleContact.UserID)] ∧
      info.Email = exampleContact.PhoneNumber ++ "@gmail.com" ∧
      info.Password = generatePassword exampleContact.UserID :=
  handleContact_reply_contains_phone_and_password worldFailing initialState
    (exampleMessage "" (some exampleContact)) exampleContact 7 42 rfl

set_option maxRecDepth 100000 in
/-- C8, counterexample: for the contact with phone number 998901234567 and
user id 42 the confirmation reply is the text built from the phone number and
the password 000042, and it does not contain the login identifier
`998901234567@gmail.com`. -/
theorem handleContact_reply_lacks_email :
    (∃ s1, handleContact (worldReturning []) initialState
        (exampleMessage "" (some exampleContact)) 7 42 = Exec.done s1 () ∧
      (posts s1.trace).map (fun d => d.2.text) =
        [successMessage "998901234567" "000042"]) ∧
    ¬ stringsContains (successMessage "998901234567" "000042")
      ("998901234567" ++ "@gmail.com") :=
  ⟨⟨_, rfl, rfl⟩, by decide⟩

/-- How `createFirebaseUser` reports the three outcomes of the user creation:
no error on success, no error when the error text contains `already exists`,
and an error otherwise. -/
theorem createFirebaseUser_result (env : Env) (s : State) (phoneNumber : String)
    (userID : Int) :
    (∀ uid, env.createUser (emit s (Event.authCreateUser (phoneNumber ++ "@gmail.com")
        (generatePassword userID) ("User_" ++ Itoa userID))).trace = Except.ok uid →
      (createFirebaseUser env s phoneNumber userID).2 = none) ∧
    (∀ e, env.createUser (emit s (Event.authCreateUser (phoneNumber ++ "@gmail.com")
        (generatePassword userID) ("User_" ++ Itoa userID))).trace = Except.error e →
      stringsContains e "already exists" →
      (createFirebaseUser env s phoneNumber userID).2 = none) ∧
    (∀ e, env.createUser (emit s (Event.authCreateUser (phoneNumber ++ "@gmail.com")
        (generatePassword userID) ("User_" ++ Itoa userID))).trace = Except.error e →
      ¬ stringsContains e "already exists" →
      (createFirebaseUser env s phoneNumber userID).2 =
        some ("Firebase Auth da foydalanuvchi yaratishda xatolik: " ++ e)) := by
  refine ⟨?_, ?_, ?_⟩
  · intro uid h
    simp only [createFirebaseUser, h]
  · intro e h hex
    simp only [createFirebaseUser, h, hex, if_true]
  · intro e h hex
    simp only [createFirebaseUser, h, hex, if_false]

/-- C9: for every contact share and every world, hence every combination of
outcomes of the Firestore write and of the user creation, `handleContact`
returns after attempting both backend calls and sending exactly one
confirmation message, to the chat it was given; chat id and text of that
message do not depend on the world, so they are the same in any two worlds; and
`createFirebaseUser` returns no error when the user already exists, as on
success. -/
theorem handleContact_confirms_whatever_the_backends_do (env env2 : Env) (s : State)
    (message : TelegramMessage) (contact : TelegramContact) (chatID userID : Int)
    (hc : message.Contact = some contact) :
    (∃ s1 info, handleContact env s message chatID userID = Exec.done s1 () ∧
      backendCalls s1.trace = backendCalls s.trace ++
        [Event.firestoreSet "userInfo" (Itoa contact.UserID) info,
          Event.authCreateUser (contact.PhoneNumber ++ "@gmail.com")
            (generatePassword contact.UserID) ("User_" ++ Itoa contact.UserID)] ∧
      posts s1.trace = posts s.trace ++
        [(s.bot.BaseURL ++ s.bot.BotToken ++ "/sendMessage",
          { chat_id := chatID,
            text := successMessage contact.PhoneNumber (generatePassword contact.UserID),
            parse_mode := "HTML", reply_markup := none })]) ∧
    posts (handleContact env2 s message chatID userID).state.trace =
      posts (handleContact env s message chatID userID).state.trace ∧
    (∀ t phoneNumber uid,
      (∀ id, env.createUser (emit t (Event.authCreateUser (phoneNumber ++ "@gmail.com")
          (generatePassword uid) ("User_" ++ Itoa uid))).trace = Except.ok id →
        (createFirebaseUser env t phoneNumber uid).2 = none) ∧
      (∀ e, env.createUser (emit t (Event.authCreateUser (phoneNumber ++ "@gmail.com")
          (generatePassword uid) ("User_" ++ Itoa uid))).trace = Except.error e →
        stringsContains e "already exists" →
        (createFirebaseUser env t phoneNumber uid).2 = none)) := by
  have key : ∀ w : Env, ∃ s1 info, handleContact w s message chatID userID = Exec.done s1 () ∧
      backendCalls s1.trace = backendCalls s.trace ++
        [Event.firestoreSet "userInfo" (Itoa contact.UserID) info,
          Event.authCreateUser (contact.PhoneNumber ++ "@gmail.com")
            (generatePassword contact.UserID) ("User_" ++ Itoa contact.UserID)] ∧
      posts s1.trace = posts s.trace ++
        [(s.bot.BaseURL ++ s.bot.BotToken ++ "/sendMessage",
          { chat_id := chatID,
            text := successMessage contact.PhoneNumber (generatePassword contact.UserID),
            parse_mode := "HTML", reply_markup := none })] := by
    intro w
    obtain ⟨s1, ts, l0, l1, l2, l3, hdone, _, h0, h1, h2, h3, ht⟩ :=
      handleContact_trace w s message contact chatID userID hc
    refine ⟨s1,
      { PhoneNumber := contact.PhoneNumber, FirstName := contact.FirstName,
        UserID := contact.UserID, CreatedAt := ts,
        Email := contact.PhoneNumber ++ "@gmail.com",
        Password := generatePassword contact.UserID }, hdone, ?_, ?_⟩
    · rw [ht]
      simp [backendCalls_append, backendCalls_cons, backendCalls_onlyLogs _ h0,
        backendCalls_onlyLogs _ h1, backendCalls_onlyLogs _ h2, backendCalls_onlyLogs _ h3]
    · rw [ht]
      simp [posts_append, posts_cons, posts_onlyLogs _ h0, posts_onlyLogs _ h1,
        posts_onlyLogs _ h2, posts_onlyLogs _ h3]
  refine ⟨key env, ?_, ?_⟩
  · obtain ⟨a, _, ha, _, hpa⟩ := key env
    obtain ⟨b, _, hb, _, hpb⟩ := key env2
    rw [ha, hb]
    simp only [Exec.state]
    rw [hpa, hpb]
  · intro t phoneNumber uid
    exact ⟨(createFirebaseUser_result env t phoneNumber uid).1,
      (createFirebaseUser_result env t phoneNumber uid).2.1⟩

theorem handleContact_confirms_whatever_the_backends_do_witness :
    posts (handleContact (worldReturning []) initialState
        (exampleMessage "" (some exampleContact)) 7 42).state.trace =
      posts (handleContact worldFailing initialState
        (exampleMessage "" (some exampleContact)) 7 42).state.trace :=
  (handleContact_confirms_whatever_the_backends_do worldFailing (worldReturning [])
    initialState (exampleMessage "" (some exampleContact)) exampleContact 7 42 rfl).2.1

/-- C10 (the code breaks the claim): on a text message that names no sender,
`processUpdate` panics on the nil `From` pointer in every world and state, and
with it the poll that fetched the update and the turn of the loop of
`startBot`. -/
theorem processUpdate_panics_without_sender (env : Env) (s : State) :
    processUpdate env s senderlessUpdate = Exec.panic s ∧
    (∃ s1, getUpdates (worldReturning [senderlessUpdate]) initialState = Exec.panic s1) ∧
    (∃ s1, startBotIteration (worldReturning [senderlessUpdate]) initialState =
      Exec.panic s1) :=
  ⟨rfl, ⟨_, rfl⟩, ⟨_, rfl⟩⟩

end TelegramBot
